import Mathlib

/-!
Verification of the build action of stacker (src/stacker/actions/build.py).

The embedding models Python dictionaries as association lists with unique
keys maintained by a replace-or-append insert (dictInsert), Python values
occurring in stack parameter maps as the inductive PyValue, and provider
interaction as explicit outcome data carried by a Provider structure
together with an event trace listing the calls the code under test makes.
-/

namespace Stacker

/-- Python values that can occur as stack parameter values: strings,
booleans, integers and None. -/
inductive PyValue where
  | str (s : String)
  | bool (b : Bool)
  | int (n : Int)
  | none
deriving DecidableEq, Repr

/-- Python str() applied to a PyValue, as build_parameters does with
str(p[1]). -/
def pyStr : PyValue → String
  | PyValue.str s => s
  | PyValue.bool b => if b then "True" else "False"
  | PyValue.int n => toString n
  | PyValue.none => "None"

/-- Replace-or-append insertion, the semantics of a Python dict assignment
d[k] = v on a dict represented as an association list in insertion order. -/
def dictInsert (k : String) (v : α) : List (String × α) → List (String × α)
  | [] => [(k, v)]
  | (k', v') :: rest =>
      if k' = k then (k, v) :: rest else (k', v') :: dictInsert k v rest

/-- The keys of an association list, in order. -/
def keys (l : List (String × α)) : List String := l.map Prod.fst

/-- Python dict lookup d[k] (first entry with the key; association lists
built by dictInsert have at most one). -/
def dictLookup (l : List (String × α)) (k : String) : Option α :=
  match l.find? (fun kv => kv.1 = k) with
  | Option.some kv => Option.some kv.2
  | Option.none => Option.none

/-- One iteration of the loop in _resolve_parameters from build.py:
discard a parameter the blueprint does not declare, discard a None value,
convert a boolean to the lower-case string CloudFormation expects, and
otherwise store the value under its key. -/
def resolveStep (param_defs : List String)
    (params : List (String × PyValue)) (kv : String × PyValue) :
    List (String × PyValue) :=
  if kv.1 ∉ param_defs then params
  else if kv.2 = PyValue.none then params
  else
    match kv.2 with
    | PyValue.bool b =>
        dictInsert kv.1 (PyValue.str (if b then "true" else "false")) params
    | v => dictInsert kv.1 v params

/-- _resolve_parameters from build.py: fold the loop body over the supplied
parameter items, building the result as a fresh dict. -/
def resolve_parameters (parameters : List (String × PyValue))
    (param_defs : List String) : List (String × PyValue) :=
  parameters.foldl (resolveStep param_defs) []

/-- A CloudFormation parameter entry, the dict with ParameterKey and
ParameterValue that build_parameters emits and that describe results carry. -/
structure CFParam where
  ParameterKey : String
  ParameterValue : String
deriving DecidableEq, Repr

/-- A describe result for an existing stack: a dict that may or may not
carry a Parameters entry. -/
structure ExistingStack where
  Parameters : Option (List CFParam)
deriving DecidableEq, Repr

/-- Outcome of provider.get_stack: either it raises StackDoesNotExist, or
it returns a description, possibly falsy (None). -/
inductive GetStackRes where
  | stackDoesNotExist
  | found (desc : Option ExistingStack)
deriving DecidableEq, Repr

/-- Provider and helper calls the build action makes, recorded as a trace. -/
inductive Event where
  | resolveStack
  | pushTemplate
  | getStack
  | updateCall
  | createCall
deriving DecidableEq, Repr

/-- The dict comprehension over the Parameters list of an existing stack:
p.ParameterKey maps to p.ParameterValue. -/
def stack_params_of (plist : List CFParam) : List (String × String) :=
  plist.foldl (fun acc p => dictInsert p.ParameterKey p.ParameterValue acc) []

/-- One iteration of the fallback copy loop in _handle_missing_parameters:
if the missing key is among the deployed parameters, copy its value. -/
def copyStep (stack_params : List (String × String))
    (ps : List (String × PyValue)) (p : String) : List (String × PyValue) :=
  match dictLookup stack_params p with
  | Option.some value => dictInsert p (PyValue.str value) ps
  | Option.none => ps

/-- _handle_missing_parameters from build.py. Returns the result of the
call (the final key-value pairs, or the MissingParameterException payload)
together with the trace of provider calls it makes. -/
def handle_missing_parameters (get_stack : GetStackRes)
    (params : List (String × PyValue)) (required_params : List String) :
    Except (List String) (List (String × PyValue)) × List Event :=
  let missing_params := required_params.filter (fun r => decide (r ∉ keys params))
  if missing_params.isEmpty then (Except.ok params, [])
  else
    let existing_stack : Option ExistingStack :=
      match get_stack with
      | GetStackRes.stackDoesNotExist => Option.none
      | GetStackRes.found d => d
    let params1 :=
      match existing_stack with
      | Option.some es =>
          match es.Parameters with
          | Option.some plist =>
              missing_params.foldl (copyStep (stack_params_of plist)) params
          | Option.none => params
      | Option.none => params
    let final_missing := required_params.filter (fun r => decide (r ∉ keys params1))
    if final_missing.isEmpty then (Except.ok params1, [Event.getStack])
    else (Except.error final_missing, [Event.getStack])

/-- The parameter map after the fallback copy loop ran against the
Parameters list of the deployed stack. -/
def fallbackParams (plist : List CFParam) (params : List (String × PyValue))
    (required_params : List String) : List (String × PyValue) :=
  (required_params.filter (fun r => decide (r ∉ keys params))).foldl
    (copyStep (stack_params_of plist)) params

/-- The stack data the build action reads: flags, declared and required
parameter names from the blueprint, supplied parameter values, and the
declared dependency names. -/
structure Stack where
  fqn : String
  locked : Bool
  enabled : Bool
  force : Bool
  parameter_values : List (String × PyValue)
  param_definitions : List String
  required_parameter_definitions : List String
  requires : List String

/-- Outcome of provider.update_stack: success, or one of the exceptions
the launch code distinguishes, or any other provider error. -/
inductive UpdateOutcome where
  | ok
  | stackDidNotChange
  | stackDoesNotExist
  | otherError (msg : String)
deriving DecidableEq, Repr

/-- Outcome of provider.create_stack: success or an uncaught provider
error. -/
inductive CreateOutcome where
  | ok
  | err (msg : String)
deriving DecidableEq, Repr

/-- The provider collaborator, modelled by the outcome each of its calls
would produce during one launch. -/
structure Provider where
  get_stack_res : GetStackRes
  update_outcome : UpdateOutcome
  create_outcome : CreateOutcome
deriving DecidableEq, Repr

/-- Terminal status values a launch produces. -/
inductive Status where
  | notSubmitted
  | notUpdated
  | didNotChange
  | submitted (details : String)
deriving DecidableEq, Repr

/-- Errors that escape _launch_stack: the MissingParameterException payload
from parameter handling, or an uncaught provider error. -/
inductive LaunchErr where
  | missingParameters (names : List String)
  | providerError (msg : String)
deriving DecidableEq, Repr

/-- should_update from build.py. -/
def should_update (stack : Stack) : Bool :=
  if stack.locked then
    if !stack.force then false else true
  else true

/-- should_submit from build.py. -/
def should_submit (stack : Stack) : Bool :=
  if stack.enabled then true else false

/-- Action.build_parameters from build.py: resolve the supplied values
against the blueprint, run the missing-parameter fallback, and render each
resulting pair with str() into ParameterKey/ParameterValue entries. -/
def build_parameters (get_stack : GetStackRes) (stack : Stack) :
    Except (List String) (List CFParam) × List Event :=
  match handle_missing_parameters get_stack
      (resolve_parameters stack.parameter_values stack.param_definitions)
      stack.required_parameter_definitions with
  | (Except.ok parameters, ev) =>
      (Except.ok (parameters.map (fun p => ⟨p.1, pyStr p.2⟩)), ev)
  | (Except.error m, ev) => (Except.error m, ev)

/-- Action._launch_stack from build.py, returning its status or escaping
error together with the trace of resolve, push and provider calls. -/
def launch_stack (provider : Provider) (stack : Stack) :
    Except LaunchErr Status × List Event :=
  if !(should_submit stack) then (Except.ok Status.notSubmitted, [])
  else
    let ev := [Event.resolveStack, Event.pushTemplate]
    match build_parameters provider.get_stack_res stack with
    | (Except.error m, evp) =>
        (Except.error (LaunchErr.missingParameters m), ev ++ evp)
    | (Except.ok _parameters, evp) =>
        if !(should_update stack) then (Except.ok Status.notUpdated, ev ++ evp)
        else
          match provider.update_outcome with
          | UpdateOutcome.ok =>
              (Except.ok (Status.submitted "UPDATING_STACK"),
               ev ++ evp ++ [Event.updateCall])
          | UpdateOutcome.stackDidNotChange =>
              (Except.ok Status.didNotChange, ev ++ evp ++ [Event.updateCall])
          | UpdateOutcome.stackDoesNotExist =>
              match provider.create_outcome with
              | CreateOutcome.ok =>
                  (Except.ok (Status.submitted "CREATE_STACK"),
                   ev ++ evp ++ [Event.updateCall, Event.createCall])
              | CreateOutcome.err e =>
                  (Except.error (LaunchErr.providerError e),
                   ev ++ evp ++ [Event.updateCall, Event.createCall])
          | UpdateOutcome.otherError e =>
              (Except.error (LaunchErr.providerError e),
               ev ++ evp ++ [Event.updateCall])

/-- An enabled, unlocked stack with no parameters, used as a concrete
launch input. -/
def baseStack : Stack :=
  { fqn := "web"
    locked := false
    enabled := true
    force := false
    parameter_values := []
    param_definitions := []
    required_parameter_definitions := []
    requires := [] }

/-- The build config entries pre_run and post_run read through
context.config.get: an absent entry is None. -/
structure BuildConfig where
  pre_build : Option (List String)
  post_build : Option (List String)
deriving DecidableEq, Repr

/-- Python truthiness of a config.get result holding a hook list: None
and the empty list are falsy. -/
def truthyHooks : Option (List String) → Bool
  | Option.none => false
  | Option.some l => !l.isEmpty

/-- A handle_hooks invocation: the stage name and the hook list passed. -/
structure HookCall where
  stage : String
  hooks : List String
deriving DecidableEq, Repr

/-- Action.pre_run from build.py, returning the handle_hooks invocations
it makes. -/
def pre_run (config : BuildConfig) (outline dump : Bool) : List HookCall :=
  let pre_build := config.pre_build
  let should_run_hooks := !outline && !dump && truthyHooks pre_build
  if should_run_hooks then [⟨"pre_build", pre_build.getD []⟩] else []

/-- Action.post_run from build.py, returning the handle_hooks invocations
it makes. -/
def post_run (config : BuildConfig) (outline dump : Bool) : List HookCall :=
  let post_build := config.post_build
  if !outline && !dump && truthyHooks post_build then
    [⟨"post_build", post_build.getD []⟩]
  else []

/-- A node of the generated plan: the stack key, the run function handed
to Plan.add, and the requires argument (dependencies.get may be None). -/
structure PlanStep where
  key : String
  run_func : Provider → Stack → Except LaunchErr Status × List Event
  requires : Option (List String)

/-- Action.context.get_stacks_dict: the stacks keyed by fqn. -/
def get_stacks_dict (stack_list : List Stack) : List (String × Stack) :=
  stack_list.foldl (fun acc s => dictInsert s.fqn s acc) []

/-- Action._get_dependencies from build.py: fqn mapped to the declared
requires set. -/
def get_dependencies (stack_list : List Stack) : List (String × List String) :=
  stack_list.foldl (fun acc s => dictInsert s.fqn s.requires acc) []

/-- The loop body of Action._generate_plan: for each name in the execution
order, look the stack up in the stacks dict (a missing name raises
KeyError, modelled as Option.none) and add a node whose run function is
the launch state machine and whose requires is dependencies.get(name). -/
def addSteps (sdict : List (String × Stack)) (deps : List (String × List String)) :
    List String → Option (List PlanStep)
  | [] => Option.some []
  | stack_name :: rest =>
      match dictLookup sdict stack_name with
      | Option.none => Option.none
      | Option.some _stack =>
          match addSteps sdict deps rest with
          | Option.none => Option.none
          | Option.some steps =>
              Option.some
                ({ key := stack_name, run_func := launch_stack,
                   requires := dictLookup deps stack_name } :: steps)

/-- Action._generate_plan from build.py. -/
def generate_plan (order : List String) (stack_list : List Stack) :
    Option (List PlanStep) :=
  addSteps (get_stacks_dict stack_list) (get_dependencies stack_list) order

/-- Modelled from the spec: get_stack_execution_order comes from the base
action class, which is not under src; per the spec the plan builder
iterates a valid execution order over the full stack collection, so the
order is a permutation of the stack fully-qualified names. -/
def executionOrderOf (order : List String) (stack_list : List Stack) : Prop :=
  order.Perm (stack_list.map Stack.fqn)

/-- A concrete stack named a with no dependencies. -/
def stackA : Stack := { baseStack with fqn := "a" }

/-- A concrete stack named b depending on a. -/
def stackB : Stack := { baseStack with fqn := "b", requires := ["a"] }

/-- A stack supplying an integer value for its single required
parameter. -/
def sizeStack : Stack :=
  { baseStack with
    parameter_values := [("Size", PyValue.int 42)]
    param_definitions := ["Size"]
    required_parameter_definitions := ["Size"] }

theorem mem_dictInsert {k : String} {v : α} {l : List (String × α)}
    {kv : String × α} (h : kv ∈ dictInsert k v l) :
    kv = (k, v) ∨ kv ∈ l := by
  induction l with
  | nil => simpa [dictInsert] using h
  | cons hd tl ih =>
      obtain ⟨k', v'⟩ := hd
      by_cases hk : k' = k
      · simp [dictInsert, hk] at h
        rcases h with h | h
        · exact Or.inl (by simp [h])
        · exact Or.inr (List.mem_cons_of_mem _ h)
      · simp [dictInsert, hk] at h
        rcases h with h | h
        · exact Or.inr (by simp [h])
        · rcases ih h with h' | h'
          · exact Or.inl h'
          · exact Or.inr (List.mem_cons_of_mem _ h')

theorem self_mem_dictInsert (k : String) (v : α) (l : List (String × α)) :
    (k, v) ∈ dictInsert k v l := by
  induction l with
  | nil => simp [dictInsert]
  | cons hd tl ih =>
      obtain ⟨k', v'⟩ := hd
      by_cases hk : k' = k <;> simp [dictInsert, hk, ih]

theorem mem_dictInsert_of_ne {k k' : String} {v : α} {w : α}
    {l : List (String × α)} (hne : k' ≠ k) (h : (k, v) ∈ l) :
    (k, v) ∈ dictInsert k' w l := by
  induction l with
  | nil => simp at h
  | cons hd tl ih =>
      obtain ⟨a, b⟩ := hd
      by_cases ha : a = k'
      · rcases List.mem_cons.mp h with h' | h'
        · exact absurd (congrArg Prod.fst h').symm (by simpa [ha] using hne)
        · simp [dictInsert, ha]
          exact Or.inr h'
      · rcases List.mem_cons.mp h with h' | h'
        · simp [dictInsert, ha]
          exact Or.inl (by simp [Prod.ext_iff] at h' ⊢; exact h')
        · simp [dictInsert, ha]
          exact Or.inr (ih h')

theorem mem_keys_dictInsert {k k' : String} {v : α} {l : List (String × α)} :
    k ∈ keys (dictInsert k' v l) ↔ k = k' ∨ k ∈ keys l := by
  induction l with
  | nil => simp [dictInsert, keys]
  | cons hd tl ih =>
      obtain ⟨a, b⟩ := hd
      by_cases ha : a = k'
      · subst ha
        simp [dictInsert, keys]
      · simp [dictInsert, ha, keys] at ih ⊢
        tauto

theorem dictLookup_dictInsert_self (k : String) (v : α)
    (l : List (String × α)) : dictLookup (dictInsert k v l) k = Option.some v := by
  induction l with
  | nil => simp [dictInsert, dictLookup]
  | cons hd tl ih =>
      obtain ⟨a, b⟩ := hd
      by_cases ha : a = k
      · simp [dictInsert, ha, dictLookup]
      · simp [dictInsert, ha, dictLookup, List.find?] at ih ⊢
        simpa [ha] using ih

theorem dictLookup_dictInsert_of_ne {k k' : String} (hne : k ≠ k') (v : α)
    (l : List (String × α)) :
    dictLookup (dictInsert k' v l) k = dictLookup l k := by
  induction l with
  | nil => simp [dictInsert, dictLookup, List.find?, Ne.symm hne]
  | cons hd tl ih =>
      obtain ⟨a, b⟩ := hd
      by_cases ha : a = k'
      · subst ha
        simp [dictInsert, dictLookup, List.find?, hne, Ne.symm hne]
      · simp [dictInsert, ha, dictLookup, List.find?] at ih ⊢
        by_cases hak : a = k <;> simp [hak, ih]

theorem dictLookup_eq_none_iff {l : List (String × α)} {k : String} :
    dictLookup l k = Option.none ↔ k ∉ keys l := by
  induction l with
  | nil => simp [dictLookup, keys]
  | cons hd tl ih =>
      obtain ⟨a, b⟩ := hd
      by_cases ha : a = k
      · simp [dictLookup, List.find?, ha, keys]
      · simp [dictLookup, List.find?, ha, keys] at ih ⊢
        exact ⟨fun h => ⟨fun h' => ha h'.symm, ih.mp h⟩, fun h => ih.mpr h.2⟩

theorem dictLookup_isSome_iff {l : List (String × α)} {k : String} :
    (∃ v, dictLookup l k = Option.some v) ↔ k ∈ keys l := by
  constructor
  · rintro ⟨v, hv⟩
    by_contra hk
    rw [dictLookup_eq_none_iff.mpr hk] at hv
    exact Option.noConfusion hv
  · intro hk
    cases h : dictLookup l k with
    | none => exact absurd (dictLookup_eq_none_iff.mp h) (by simp [hk])
    | some v => exact ⟨v, rfl⟩

theorem resolveStep_invariant {param_defs : List String}
    {acc : List (String × PyValue)}
    (hacc : ∀ kv ∈ acc, kv.1 ∈ param_defs ∧ kv.2 ≠ PyValue.none ∧
      ∀ b, kv.2 ≠ PyValue.bool b) (hd : String × PyValue) :
    ∀ kv ∈ resolveStep param_defs acc hd,
      kv.1 ∈ param_defs ∧ kv.2 ≠ PyValue.none ∧ ∀ b, kv.2 ≠ PyValue.bool b := by
  intro kv h
  unfold resolveStep at h
  by_cases hd1 : hd.1 ∈ param_defs
  · by_cases hd2 : hd.2 = PyValue.none
    · simp [hd1, hd2] at h
      exact hacc _ h
    · cases hv : hd.2 with
      | none => exact absurd hv hd2
      | bool b =>
          simp [hd1, hd2, hv] at h
          rcases mem_dictInsert h with h | h
          · subst h; exact ⟨hd1, by simp, by simp⟩
          · exact hacc _ h
      | str s =>
          simp [hd1, hd2, hv] at h
          rcases mem_dictInsert h with h | h
          · subst h; exact ⟨hd1, by simp, by simp⟩
          · exact hacc _ h
      | int n =>
          simp [hd1, hd2, hv] at h
          rcases mem_dictInsert h with h | h
          · subst h; exact ⟨hd1, by simp, by simp⟩
          · exact hacc _ h
  · simp [hd1] at h
    exact hacc _ h

theorem resolve_parameters_invariant (parameters : List (String × PyValue))
    (param_defs : List String) :
    ∀ kv ∈ resolve_parameters parameters param_defs,
      kv.1 ∈ param_defs ∧ kv.2 ≠ PyValue.none ∧ ∀ b, kv.2 ≠ PyValue.bool b := by
  unfold resolve_parameters
  suffices h : ∀ (l : List (String × PyValue)) (acc : List (String × PyValue)),
      (∀ kv ∈ acc, kv.1 ∈ param_defs ∧ kv.2 ≠ PyValue.none ∧
        ∀ b, kv.2 ≠ PyValue.bool b) →
      ∀ kv ∈ l.foldl (resolveStep param_defs) acc,
        kv.1 ∈ param_defs ∧ kv.2 ≠ PyValue.none ∧ ∀ b, kv.2 ≠ PyValue.bool b by
    exact h parameters [] (by simp)
  intro l
  induction l with
  | nil => intro acc hacc kv hkv; exact hacc kv hkv
  | cons hd tl ih =>
      intro acc hacc kv hkv
      exact ih _ (resolveStep_invariant hacc hd) kv hkv

theorem resolveStep_preserve {param_defs : List String}
    {acc : List (String × PyValue)} {k : String} {v : PyValue}
    {hd : String × PyValue} (hne : hd.1 ≠ k) (hmem : (k, v) ∈ acc) :
    (k, v) ∈ resolveStep param_defs acc hd := by
  unfold resolveStep
  by_cases hd1 : hd.1 ∈ param_defs
  · by_cases hd2 : hd.2 = PyValue.none
    · simpa [hd1, hd2] using hmem
    · cases hv : hd.2 with
      | none => exact absurd hv hd2
      | bool b =>
          simp [hd1, hd2, hv]
          exact mem_dictInsert_of_ne hne hmem
      | str s =>
          simp [hd1, hd2, hv]
          exact mem_dictInsert_of_ne hne hmem
      | int n =>
          simp [hd1, hd2, hv]
          exact mem_dictInsert_of_ne hne hmem
  · simpa [hd1] using hmem

theorem foldl_resolve_preserve (param_defs : List String)
    (l : List (String × PyValue)) (acc : List (String × PyValue))
    {k : String} {v : PyValue} (hk : k ∉ keys l) (hmem : (k, v) ∈ acc) :
    (k, v) ∈ l.foldl (resolveStep param_defs) acc := by
  induction l generalizing acc with
  | nil => simpa using hmem
  | cons hd tl ih =>
      have hk1 : hd.1 ≠ k := by
        intro h; exact hk (by simp [keys, h])
      have hk2 : k ∉ keys tl := by
        intro h; exact hk (by simp [keys] at h ⊢; exact Or.inr h)
      exact ih _ hk2 (resolveStep_preserve hk1 hmem)

theorem resolve_parameters_bool (parameters : List (String × PyValue))
    (param_defs : List String) (hnd : (keys parameters).Nodup)
    {k : String} {b : Bool} (hmem : (k, PyValue.bool b) ∈ parameters)
    (hdef : k ∈ param_defs) :
    (k, PyValue.str (if b then "true" else "false")) ∈
      resolve_parameters parameters param_defs := by
  unfold resolve_parameters
  suffices h : ∀ (l : List (String × PyValue)) (acc : List (String × PyValue)),
      (keys l).Nodup → (k, PyValue.bool b) ∈ l →
      (k, PyValue.str (if b then "true" else "false")) ∈
        l.foldl (resolveStep param_defs) acc by
    exact h parameters [] hnd hmem
  intro l
  induction l with
  | nil => intro acc _ hm; simp at hm
  | cons hd tl ih =>
      intro acc hndl hm
      have hnd' : hd.1 ∉ keys tl ∧ (keys tl).Nodup := by
        have heq : keys (hd :: tl) = hd.1 :: keys tl := rfl
        rw [heq] at hndl
        exact List.nodup_cons.mp hndl
      rcases List.mem_cons.mp hm with hm | hm
      · have hk1 : hd.1 = k := by rw [← hm]
        have hk2 : hd.2 = PyValue.bool b := by rw [← hm]
        have hknotin : k ∉ keys tl := hk1 ▸ hnd'.1
        simp only [List.foldl_cons]
        refine foldl_resolve_preserve param_defs tl _ hknotin ?_
        unfold resolveStep
        simp [hk1, hk2, hdef]
        exact self_mem_dictInsert _ _ _
      · simp only [List.foldl_cons]
        exact ih _ hnd'.2 hm

/-- Claim C3: resolve_parameters keeps only blueprint-declared keys, drops
None values, and converts booleans to lower-case strings; unknown keys and
None values are discarded rather than raising. The nodup hypothesis states
the input is a Python dict (unique keys). -/
theorem C3_resolve_parameters (parameters : List (String × PyValue))
    (param_defs : List String) (hnd : (keys parameters).Nodup) :
    (∀ kv ∈ resolve_parameters parameters param_defs,
        kv.1 ∈ param_defs ∧ kv.2 ≠ PyValue.none ∧
          ∀ b, kv.2 ≠ PyValue.bool b) ∧
    (∀ k b, (k, PyValue.bool b) ∈ parameters → k ∈ param_defs →
        (k, PyValue.str (if b then "true" else "false")) ∈
          resolve_parameters parameters param_defs) :=
  ⟨resolve_parameters_invariant parameters param_defs,
   fun _ _ hmem hdef => resolve_parameters_bool parameters param_defs hnd hmem hdef⟩

/-- Closed instance of C3: a map with an unused key, a None value, a boolean
and an integer. -/
theorem C3_resolve_parameters_witness :
    (keys [("A", PyValue.bool true), ("B", PyValue.none),
           ("C", PyValue.int 3), ("X", PyValue.str "x")]).Nodup ∧
    ((∀ kv ∈ resolve_parameters
          [("A", PyValue.bool true), ("B", PyValue.none),
           ("C", PyValue.int 3), ("X", PyValue.str "x")] ["A", "B", "C"],
        kv.1 ∈ ["A", "B", "C"] ∧ kv.2 ≠ PyValue.none ∧
          ∀ b, kv.2 ≠ PyValue.bool b) ∧
     (∀ k b, (k, PyValue.bool b) ∈
          [("A", PyValue.bool true), ("B", PyValue.none),
           ("C", PyValue.int 3), ("X", PyValue.str "x")] → k ∈ ["A", "B", "C"] →
        (k, PyValue.str (if b then "true" else "false")) ∈
          resolve_parameters
            [("A", PyValue.bool true), ("B", PyValue.none),
             ("C", PyValue.int 3), ("X", PyValue.str "x")] ["A", "B", "C"])) :=
  ⟨by decide,
   C3_resolve_parameters _ _ (by decide)⟩

theorem dictLookup_some_mem {l : List (String × α)} {k : String} {v : α}
    (h : dictLookup l k = Option.some v) : (k, v) ∈ l := by
  unfold dictLookup at h
  cases hf : l.find? (fun kv => kv.1 = k) with
  | none => rw [hf] at h; exact Option.noConfusion h
  | some kv =>
      rw [hf] at h
      have hmem := List.mem_of_find?_eq_some hf
      have hkey : kv.1 = k := by simpa using List.find?_some hf
      have hv : kv.2 = v := by simpa using h
      have : (k, v) = kv := by
        cases kv; simp at hkey hv; simp [hkey, hv]
      rw [this]; exact hmem

theorem mem_keys_foldl_dictInsert {β : Type} (fk : β → String) (fv : β → α)
    (l : List β) (acc : List (String × α)) (k : String) :
    k ∈ keys (l.foldl (fun a b => dictInsert (fk b) (fv b) a) acc) ↔
      k ∈ l.map fk ∨ k ∈ keys acc := by
  induction l generalizing acc with
  | nil => simp
  | cons hd tl ih =>
      simp only [List.foldl_cons, List.map_cons, List.mem_cons]
      rw [ih]
      rw [mem_keys_dictInsert]
      tauto

theorem mem_keys_stack_params_of (plist : List CFParam) (k : String) :
    k ∈ keys (stack_params_of plist) ↔ k ∈ plist.map CFParam.ParameterKey := by
  unfold stack_params_of
  rw [mem_keys_foldl_dictInsert]
  simp [keys]

theorem copyFold_lookup_preserve (sp : List (String × String))
    (l : List String) (ps : List (String × PyValue)) {p : String} {v : String}
    (hsp : dictLookup sp p = Option.some v)
    (hps : dictLookup ps p = Option.some (PyValue.str v)) :
    dictLookup (l.foldl (copyStep sp) ps) p = Option.some (PyValue.str v) := by
  induction l generalizing ps with
  | nil => simpa using hps
  | cons hd tl ih =>
      simp only [List.foldl_cons]
      refine ih _ ?_
      unfold copyStep
      cases hl : dictLookup sp hd with
      | none => simpa using hps
      | some w =>
          by_cases hhd : hd = p
          · subst hhd
            have : w = v := by rw [hl] at hsp; simpa using hsp
            subst this
            simp [dictLookup_dictInsert_self]
          · simpa [dictLookup_dictInsert_of_ne (Ne.symm hhd)] using hps

theorem copyFold_lookup (sp : List (String × String)) (l : List String)
    (ps : List (String × PyValue)) {p : String} {v : String}
    (hp : p ∈ l) (hsp : dictLookup sp p = Option.some v) :
    dictLookup (l.foldl (copyStep sp) ps) p = Option.some (PyValue.str v) := by
  induction l generalizing ps with
  | nil => simp at hp
  | cons hd tl ih =>
      simp only [List.foldl_cons]
      by_cases hhd : hd = p
      · subst hhd
        refine copyFold_lookup_preserve sp tl _ hsp ?_
        unfold copyStep
        rw [hsp]
        simp [dictLookup_dictInsert_self]
      · rcases List.mem_cons.mp hp with h | h
        · exact absurd h.symm hhd
        · exact ih _ h

theorem copyFold_keys (sp : List (String × String)) (l : List String)
    (ps : List (String × PyValue)) (k : String) :
    k ∈ keys (l.foldl (copyStep sp) ps) ↔
      k ∈ keys ps ∨ (k ∈ l ∧ k ∈ keys sp) := by
  induction l generalizing ps with
  | nil => simp
  | cons hd tl ih =>
      simp only [List.foldl_cons, List.mem_cons]
      rw [ih]
      unfold copyStep
      cases hl : dictLookup sp hd with
      | none =>
          have hnot : hd ∉ keys sp := dictLookup_eq_none_iff.mp hl
          constructor
          · rintro (h | h)
            · exact Or.inl h
            · exact Or.inr ⟨Or.inr h.1, h.2⟩
          · rintro (h | ⟨h1 | h1, h2⟩)
            · exact Or.inl h
            · exact absurd (h1 ▸ h2) hnot
            · exact Or.inr ⟨h1, h2⟩
      | some w =>
          have hin : hd ∈ keys sp := dictLookup_isSome_iff.mp ⟨w, hl⟩
          rw [mem_keys_dictInsert]
          constructor
          · rintro ((h | h) | h)
            · exact Or.inr ⟨Or.inl h, h ▸ hin⟩
            · exact Or.inl h
            · exact Or.inr ⟨Or.inr h.1, h.2⟩
          · rintro (h | ⟨h1 | h1, h2⟩)
            · exact Or.inl (Or.inr h)
            · exact Or.inl (Or.inl h1)
            · exact Or.inr ⟨h1, h2⟩

theorem handle_missing_found_eq (params : List (String × PyValue))
    (required_params : List String) (plist : List CFParam) :
    handle_missing_parameters (GetStackRes.found (Option.some ⟨Option.some plist⟩))
      params required_params =
    (if (required_params.filter (fun r => decide (r ∉ keys params))).isEmpty
     then (Except.ok params, [])
     else if (required_params.filter
          (fun r => decide (r ∉ keys (fallbackParams plist params required_params)))).isEmpty
       then (Except.ok (fallbackParams plist params required_params), [Event.getStack])
       else (Except.error (required_params.filter
          (fun r => decide (r ∉ keys (fallbackParams plist params required_params)))),
          [Event.getStack])) := rfl

theorem handle_missing_found_none_eq (params : List (String × PyValue))
    (required_params : List String) :
    handle_missing_parameters (GetStackRes.found Option.none) params
      required_params =
    (if (required_params.filter (fun r => decide (r ∉ keys params))).isEmpty
     then (Except.ok params, [])
     else if (required_params.filter (fun r => decide (r ∉ keys params))).isEmpty
       then (Except.ok params, [Event.getStack])
       else (Except.error (required_params.filter
          (fun r => decide (r ∉ keys params))), [Event.getStack])) := rfl

theorem handle_missing_found_noParams_eq (params : List (String × PyValue))
    (required_params : List String) :
    handle_missing_parameters
      (GetStackRes.found (Option.some ⟨Option.none⟩)) params required_params =
    (if (required_params.filter (fun r => decide (r ∉ keys params))).isEmpty
     then (Except.ok params, [])
     else if (required_params.filter (fun r => decide (r ∉ keys params))).isEmpty
       then (Except.ok params, [Event.getStack])
       else (Except.error (required_params.filter
          (fun r => decide (r ∉ keys params))), [Event.getStack])) := rfl

/-- Claim C4: when every required parameter is already resolved, the
fallback is a no-op returning the map unchanged, and the trace shows no
get_stack call. -/
theorem C4_fallback_noop (get_stack : GetStackRes)
    (params : List (String × PyValue)) (required_params : List String)
    (hsub : ∀ r ∈ required_params, r ∈ keys params) :
    handle_missing_parameters get_stack params required_params =
      (Except.ok params, []) := by
  have hfilter : required_params.filter (fun r => decide (r ∉ keys params)) = [] :=
    List.filter_eq_nil_iff.mpr (fun a ha => by simpa using hsub a ha)
  simp only [handle_missing_parameters]
  rw [hfilter]
  rfl

/-- Closed instance of C4 at a concrete resolved map covering the single
required parameter. -/
theorem C4_fallback_noop_witness :
    (∀ r ∈ ["A"], r ∈ keys [("A", PyValue.str "v")]) ∧
    handle_missing_parameters GetStackRes.stackDoesNotExist
      [("A", PyValue.str "v")] ["A"] =
      (Except.ok [("A", PyValue.str "v")], []) :=
  ⟨by decide, C4_fallback_noop _ _ _ (by decide)⟩

/-- Claim C10: when the describe result is falsy or has no Parameters
entry, the fallback copies nothing and raises MissingParameterException
naming the entire initially missing set, rather than crashing. -/
theorem C10_fallback_without_parameters_entry (get_stack : GetStackRes)
    (params : List (String × PyValue)) (required_params : List String)
    (hg : get_stack = GetStackRes.found Option.none ∨
          get_stack = GetStackRes.found (Option.some ⟨Option.none⟩))
    (hne : ∃ r ∈ required_params, r ∉ keys params) :
    handle_missing_parameters get_stack params required_params =
      (Except.error (required_params.filter (fun r => decide (r ∉ keys params))),
       [Event.getStack]) := by
  obtain ⟨r, hr, hrk⟩ := hne
  have hmem : r ∈ required_params.filter (fun r => decide (r ∉ keys params)) :=
    List.mem_filter.mpr ⟨hr, by simpa using hrk⟩
  have hne' : (required_params.filter (fun r => decide (r ∉ keys params))).isEmpty = false :=
    List.isEmpty_eq_false.mpr (List.ne_nil_of_mem hmem)
  have hcond : ¬ ((required_params.filter
      (fun r => decide (r ∉ keys params))).isEmpty = true) := by
    rw [hne']; exact Bool.false_ne_true
  rcases hg with hg | hg <;> subst hg
  · rw [handle_missing_found_none_eq, if_neg hcond, if_neg hcond]
  · rw [handle_missing_found_noParams_eq, if_neg hcond, if_neg hcond]

/-- Closed instance of C10 at a falsy describe result. -/
theorem C10_fallback_without_parameters_entry_witness :
    (GetStackRes.found Option.none = GetStackRes.found Option.none ∨
     GetStackRes.found Option.none =
       GetStackRes.found (Option.some ⟨Option.none⟩)) ∧
    (∃ r ∈ ["Name"], r ∉ keys ([] : List (String × PyValue))) ∧
    handle_missing_parameters (GetStackRes.found Option.none) [] ["Name"] =
      (Except.error (["Name"].filter
          (fun r => decide (r ∉ keys ([] : List (String × PyValue))))),
       [Event.getStack]) :=
  ⟨Or.inl rfl, ⟨"Name", by decide⟩,
   C10_fallback_without_parameters_entry _ _ _ (Or.inl rfl) ⟨"Name", by decide⟩⟩

/-- Claim C2: against a deployed stack description carrying a Parameters
list, the fallback copies the deployed value for every required key that
is absent from the resolved map and present in the deployed parameters;
it fails exactly when some required key is covered by neither, and the
failure payload names exactly the keys missing from both; a
StackDoesNotExist raise from get_stack is treated like an absent
description rather than an error. -/
theorem C2_fallback_from_existing (params : List (String × PyValue))
    (required_params : List String) (plist : List CFParam) :
    (∀ ps ev, handle_missing_parameters
        (GetStackRes.found (Option.some ⟨Option.some plist⟩)) params required_params
        = (Except.ok ps, ev) →
      ∀ p v, p ∈ required_params → p ∉ keys params →
        dictLookup (stack_params_of plist) p = Option.some v →
        (p, PyValue.str v) ∈ ps) ∧
    (∀ fm ev, handle_missing_parameters
        (GetStackRes.found (Option.some ⟨Option.some plist⟩)) params required_params
        = (Except.error fm, ev) →
      ∀ x, x ∈ fm ↔ x ∈ required_params ∧ x ∉ keys params ∧
        x ∉ keys (stack_params_of plist)) ∧
    ((∃ fm ev, handle_missing_parameters
        (GetStackRes.found (Option.some ⟨Option.some plist⟩)) params required_params
        = (Except.error fm, ev)) ↔
      ∃ r ∈ required_params, r ∉ keys params ∧
        r ∉ keys (stack_params_of plist)) ∧
    (handle_missing_parameters GetStackRes.stackDoesNotExist params required_params
      = handle_missing_parameters (GetStackRes.found Option.none) params
          required_params) := by
  have hmiss_mem : ∀ x, x ∈ required_params.filter
      (fun r => decide (r ∉ keys params)) ↔
      x ∈ required_params ∧ x ∉ keys params := by
    intro x; simp [List.mem_filter]
  have hkeys1 : ∀ k, k ∈ keys (fallbackParams plist params required_params) ↔
      k ∈ keys params ∨ (k ∈ required_params ∧ k ∉ keys params ∧
        k ∈ keys (stack_params_of plist)) := by
    intro k
    unfold fallbackParams
    rw [copyFold_keys]
    rw [hmiss_mem k]
    tauto
  have hfinal_mem : ∀ x, x ∈ required_params.filter
      (fun r => decide (r ∉ keys (fallbackParams plist params required_params))) ↔
      x ∈ required_params ∧ x ∉ keys params ∧
        x ∉ keys (stack_params_of plist) := by
    intro x
    rw [List.mem_filter]
    simp only [decide_eq_true_eq]
    rw [hkeys1 x]
    tauto
  by_cases hm : (required_params.filter
      (fun r => decide (r ∉ keys params))).isEmpty = true
  · have hall : ∀ a ∈ required_params, a ∈ keys params := by
      intro a ha
      by_contra hna
      have hmem : a ∈ required_params.filter (fun r => decide (r ∉ keys params)) :=
        (hmiss_mem a).mpr ⟨ha, hna⟩
      rw [List.isEmpty_iff.mp hm] at hmem
      simp at hmem
    have heq : handle_missing_parameters
        (GetStackRes.found (Option.some ⟨Option.some plist⟩)) params required_params
        = (Except.ok params, []) := by
      rw [handle_missing_found_eq, if_pos hm]
    refine ⟨?_, ?_, ?_, rfl⟩
    · intro ps ev _ p v hp hnp _
      exact absurd (hall p hp) hnp
    · intro fm ev h
      rw [heq] at h
      simp at h
    · constructor
      · rintro ⟨fm, ev, h⟩
        rw [heq] at h
        simp at h
      · rintro ⟨r, hr, hnp, -⟩
        exact absurd (hall r hr) hnp
  · by_cases hf : (required_params.filter
        (fun r => decide (r ∉ keys (fallbackParams plist params required_params)))).isEmpty = true
    · have heq : handle_missing_parameters
          (GetStackRes.found (Option.some ⟨Option.some plist⟩)) params required_params
          = (Except.ok (fallbackParams plist params required_params),
             [Event.getStack]) := by
        rw [handle_missing_found_eq, if_neg hm, if_pos hf]
      refine ⟨?_, ?_, ?_, rfl⟩
      · intro ps ev h p v hp hnp hspv
        rw [heq] at h
        simp only [Prod.mk.injEq, Except.ok.injEq] at h
        obtain ⟨h1, -⟩ := h
        have hlp : dictLookup (fallbackParams plist params required_params) p
            = Option.some (PyValue.str v) := by
          unfold fallbackParams
          exact copyFold_lookup _ _ _ ((hmiss_mem p).mpr ⟨hp, hnp⟩) hspv
        exact h1 ▸ dictLookup_some_mem hlp
      · intro fm ev h
        rw [heq] at h
        simp at h
      · constructor
        · rintro ⟨fm, ev, h⟩
          rw [heq] at h
          simp at h
        · rintro ⟨r, hr, h1, h2⟩
          have hmem : r ∈ required_params.filter
              (fun r => decide (r ∉ keys (fallbackParams plist params required_params))) :=
            (hfinal_mem r).mpr ⟨hr, h1, h2⟩
          rw [List.isEmpty_iff.mp hf] at hmem
          simp at hmem
    · have heq : handle_missing_parameters
          (GetStackRes.found (Option.some ⟨Option.some plist⟩)) params required_params
          = (Except.error (required_params.filter
              (fun r => decide (r ∉ keys (fallbackParams plist params required_params)))),
             [Event.getStack]) := by
        rw [handle_missing_found_eq, if_neg hm, if_neg hf]
      refine ⟨?_, ?_, ?_, rfl⟩
      · intro ps ev h
        rw [heq] at h
        simp at h
      · intro fm ev h
        rw [heq] at h
        simp only [Prod.mk.injEq, Except.error.injEq] at h
        obtain ⟨h1, -⟩ := h
        intro x
        rw [← h1]
        exact hfinal_mem x
      · constructor
        · rintro ⟨fm, ev, h⟩
          rw [heq] at h
          simp only [Prod.mk.injEq, Except.error.injEq] at h
          obtain ⟨h1, -⟩ := h
          have hne : required_params.filter
              (fun r => decide (r ∉ keys (fallbackParams plist params required_params)))
              ≠ [] := by
            intro hnil
            rw [hnil] at hf
            exact hf rfl
          obtain ⟨x, hx⟩ := List.exists_mem_of_ne_nil _ hne
          obtain ⟨hx1, hx2, hx3⟩ := (hfinal_mem x).mp hx
          exact ⟨x, hx1, hx2, hx3⟩
        · intro _
          exact ⟨_, _, heq⟩

/-- Closed instance of C2: one required key copied from the deployed
stack, and one required key missing from both sides producing the exact
failure payload. -/
theorem C2_fallback_from_existing_witness :
    ("P", PyValue.str "pv") ∈
      ([("Q", PyValue.str "q"), ("P", PyValue.str "pv")] :
        List (String × PyValue)) ∧
    ("Z" ∈ ["Z"] ↔ "Z" ∈ ["P", "Z"] ∧
      "Z" ∉ keys ([] : List (String × PyValue)) ∧
      "Z" ∉ keys (stack_params_of [⟨"P", "pv"⟩])) := by
  constructor
  · exact (C2_fallback_from_existing [("Q", PyValue.str "q")] ["P", "Q"]
      [⟨"P", "pv"⟩]).1
      [("Q", PyValue.str "q"), ("P", PyValue.str "pv")] [Event.getStack] rfl
      "P" "pv" (by decide) (by decide) rfl
  · exact (C2_fallback_from_existing [] ["P", "Z"] [⟨"P", "pv"⟩]).2.1
      ["Z"] [Event.getStack] rfl "Z"

theorem handle_missing_trace (get_stack : GetStackRes)
    (params : List (String × PyValue)) (required_params : List String) :
    (handle_missing_parameters get_stack params required_params).2 = [] ∨
    (handle_missing_parameters get_stack params required_params).2 =
      [Event.getStack] := by
  simp only [handle_missing_parameters]
  split
  · left; rfl
  · split
    · right; rfl
    · right; rfl

theorem build_parameters_trace (get_stack : GetStackRes) (stack : Stack) :
    (build_parameters get_stack stack).2 = [] ∨
    (build_parameters get_stack stack).2 = [Event.getStack] := by
  unfold build_parameters
  rcases hh : handle_missing_parameters get_stack
      (resolve_parameters stack.parameter_values stack.param_definitions)
      stack.required_parameter_definitions with ⟨res, ev⟩
  have ht := handle_missing_trace get_stack
      (resolve_parameters stack.parameter_values stack.param_definitions)
      stack.required_parameter_definitions
  rw [hh] at ht
  cases res <;> simpa using ht

/-- Claim C6: a disabled stack terminates immediately in NotSubmitted with
an empty call trace: no resolve, push, parameter building or provider
contact. -/
theorem C6_disabled_stack_not_submitted (provider : Provider) (stack : Stack)
    (hdis : stack.enabled = false) :
    launch_stack provider stack = (Except.ok Status.notSubmitted, []) := by
  simp [launch_stack, should_submit, hdis]

/-- Closed instance of C6 at a concrete disabled stack. -/
theorem C6_disabled_stack_not_submitted_witness :
    ({ baseStack with enabled := false } : Stack).enabled = false ∧
    launch_stack ⟨GetStackRes.stackDoesNotExist, UpdateOutcome.ok, CreateOutcome.ok⟩
      { baseStack with enabled := false } =
      (Except.ok Status.notSubmitted, []) :=
  ⟨rfl, C6_disabled_stack_not_submitted _ _ rfl⟩

/-- Claim C5: an enabled, locked, unforced stack reaches NotUpdated, and
only after resolve, template push and parameter building all ran; no
update or create call appears in its trace. An enabled, locked stack in
the force set goes on to issue the update call. -/
theorem C5_locked_update_gate (provider : Provider) (stack : Stack)
    (hen : stack.enabled = true) (hlock : stack.locked = true)
    (ps : List CFParam) (evp : List Event)
    (hbp : build_parameters provider.get_stack_res stack = (Except.ok ps, evp)) :
    (stack.force = false →
      launch_stack provider stack =
        (Except.ok Status.notUpdated,
         [Event.resolveStack, Event.pushTemplate] ++ evp) ∧
      Event.updateCall ∉ [Event.resolveStack, Event.pushTemplate] ++ evp ∧
      Event.createCall ∉ [Event.resolveStack, Event.pushTemplate] ++ evp) ∧
    (stack.force = true →
      Event.updateCall ∈ (launch_stack provider stack).2) := by
  have hss : should_submit stack = true := by simp [should_submit, hen]
  have hevp : evp = [] ∨ evp = [Event.getStack] := by
    have := build_parameters_trace provider.get_stack_res stack
    rw [hbp] at this
    simpa using this
  constructor
  · intro hforce
    have hsu : should_update stack = false := by
      simp [should_update, hlock, hforce]
    refine ⟨by simp [launch_stack, hss, hsu, hbp], ?_, ?_⟩ <;>
      rcases hevp with h | h <;> subst h <;> decide
  · intro hforce
    have hsu : should_update stack = true := by
      simp [should_update, hlock, hforce]
    cases hu : provider.update_outcome with
    | stackDoesNotExist =>
        cases hc : provider.create_outcome <;>
          simp [launch_stack, hss, hsu, hbp, hu, hc]
    | ok => simp [launch_stack, hss, hsu, hbp, hu]
    | stackDidNotChange => simp [launch_stack, hss, hsu, hbp, hu]
    | otherError e => simp [launch_stack, hss, hsu, hbp, hu]

/-- Closed instance of C5: a locked unforced stack yields NotUpdated with
no mutating call; a locked forced stack issues the update call. -/
theorem C5_locked_update_gate_witness :
    (launch_stack ⟨GetStackRes.stackDoesNotExist, UpdateOutcome.ok, CreateOutcome.ok⟩
        { baseStack with locked := true } =
      (Except.ok Status.notUpdated,
       [Event.resolveStack, Event.pushTemplate] ++ []) ∧
     Event.updateCall ∉ [Event.resolveStack, Event.pushTemplate] ++ ([] : List Event) ∧
     Event.createCall ∉ [Event.resolveStack, Event.pushTemplate] ++ ([] : List Event)) ∧
    Event.updateCall ∈
      (launch_stack ⟨GetStackRes.stackDoesNotExist, UpdateOutcome.ok, CreateOutcome.ok⟩
        { baseStack with locked := true, force := true }).2 :=
  ⟨(C5_locked_update_gate
      ⟨GetStackRes.stackDoesNotExist, UpdateOutcome.ok, CreateOutcome.ok⟩
      { baseStack with locked := true } rfl rfl [] [] rfl).1 rfl,
   (C5_locked_update_gate
      ⟨GetStackRes.stackDoesNotExist, UpdateOutcome.ok, CreateOutcome.ok⟩
      { baseStack with locked := true, force := true } rfl rfl [] [] rfl).2 rfl⟩

/-- Claim C1: for an enabled stack that passes the update gate and whose
parameters build successfully, the launch tries update first: success
maps to Submitted UPDATING_STACK, StackDidNotChange to DidNotChange,
StackDoesNotExist falls through to create and maps to Submitted
CREATE_STACK on success, and any other provider error (from update or
from the create fallback) escapes unrecovered. -/
theorem C1_launch_update_then_create (provider : Provider) (stack : Stack)
    (hen : stack.enabled = true)
    (hupd : stack.locked = false ∨ stack.force = true)
    (ps : List CFParam) (evp : List Event)
    (hbp : build_parameters provider.get_stack_res stack = (Except.ok ps, evp)) :
    (provider.update_outcome = UpdateOutcome.ok →
      (launch_stack provider stack).1 =
        Except.ok (Status.submitted "UPDATING_STACK")) ∧
    (provider.update_outcome = UpdateOutcome.stackDidNotChange →
      (launch_stack provider stack).1 = Except.ok Status.didNotChange) ∧
    (provider.update_outcome = UpdateOutcome.stackDoesNotExist →
      provider.create_outcome = CreateOutcome.ok →
      (launch_stack provider stack).1 =
        Except.ok (Status.submitted "CREATE_STACK")) ∧
    (∀ e, provider.update_outcome = UpdateOutcome.otherError e →
      (launch_stack provider stack).1 =
        Except.error (LaunchErr.providerError e)) ∧
    (∀ e, provider.update_outcome = UpdateOutcome.stackDoesNotExist →
      provider.create_outcome = CreateOutcome.err e →
      (launch_stack provider stack).1 =
        Except.error (LaunchErr.providerError e)) := by
  have hss : should_submit stack = true := by simp [should_submit, hen]
  have hsu : should_update stack = true := by
    rcases hupd with h | h <;> simp [should_update, h]
  refine ⟨?_, ?_, ?_, ?_, ?_⟩
  · intro hu; simp [launch_stack, hss, hsu, hbp, hu]
  · intro hu; simp [launch_stack, hss, hsu, hbp, hu]
  · intro hu hc; simp [launch_stack, hss, hsu, hbp, hu, hc]
  · intro e hu; simp [launch_stack, hss, hsu, hbp, hu]
  · intro e hu hc; simp [launch_stack, hss, hsu, hbp, hu, hc]

/-- Closed instances of C1 covering all four submit outcomes. -/
theorem C1_launch_update_then_create_witness :
    (launch_stack ⟨GetStackRes.stackDoesNotExist, UpdateOutcome.ok, CreateOutcome.ok⟩
      baseStack).1 = Except.ok (Status.submitted "UPDATING_STACK") ∧
    (launch_stack ⟨GetStackRes.stackDoesNotExist, UpdateOutcome.stackDidNotChange,
      CreateOutcome.ok⟩ baseStack).1 = Except.ok Status.didNotChange ∧
    (launch_stack ⟨GetStackRes.stackDoesNotExist, UpdateOutcome.stackDoesNotExist,
      CreateOutcome.ok⟩ baseStack).1 = Except.ok (Status.submitted "CREATE_STACK") ∧
    (launch_stack ⟨GetStackRes.stackDoesNotExist, UpdateOutcome.otherError "boom",
      CreateOutcome.ok⟩ baseStack).1 =
        Except.error (LaunchErr.providerError "boom") ∧
    (launch_stack ⟨GetStackRes.stackDoesNotExist, UpdateOutcome.stackDoesNotExist,
      CreateOutcome.err "denied"⟩ baseStack).1 =
        Except.error (LaunchErr.providerError "denied") :=
  ⟨(C1_launch_update_then_create
      ⟨GetStackRes.stackDoesNotExist, UpdateOutcome.ok, CreateOutcome.ok⟩
      baseStack rfl (Or.inl rfl) [] [] rfl).1 rfl,
   (C1_launch_update_then_create
      ⟨GetStackRes.stackDoesNotExist, UpdateOutcome.stackDidNotChange,
        CreateOutcome.ok⟩
      baseStack rfl (Or.inl rfl) [] [] rfl).2.1 rfl,
   (C1_launch_update_then_create
      ⟨GetStackRes.stackDoesNotExist, UpdateOutcome.stackDoesNotExist,
        CreateOutcome.ok⟩
      baseStack rfl (Or.inl rfl) [] [] rfl).2.2.1 rfl rfl,
   (C1_launch_update_then_create
      ⟨GetStackRes.stackDoesNotExist, UpdateOutcome.otherError "boom",
        CreateOutcome.ok⟩
      baseStack rfl (Or.inl rfl) [] [] rfl).2.2.2.1 "boom" rfl,
   (C1_launch_update_then_create
      ⟨GetStackRes.stackDoesNotExist, UpdateOutcome.stackDoesNotExist,
        CreateOutcome.err "denied"⟩
      baseStack rfl (Or.inl rfl) [] [] rfl).2.2.2.2 "denied" rfl rfl⟩

/-- Claim C8: hooks run exactly in execute mode with a configured
(present, non-empty, per Python truthiness) hook list; outline or dump
mode skips both stages. -/
theorem C8_hooks_only_in_execute_mode (config : BuildConfig)
    (outline dump : Bool) :
    (pre_run config outline dump ≠ [] ↔
      outline = false ∧ dump = false ∧ truthyHooks config.pre_build = true) ∧
    (post_run config outline dump ≠ [] ↔
      outline = false ∧ dump = false ∧ truthyHooks config.post_build = true) ∧
    ((outline = true ∨ dump = true) →
      pre_run config outline dump = [] ∧ post_run config outline dump = []) := by
  refine ⟨?_, ?_, ?_⟩
  · cases outline <;> cases dump <;>
      cases h : truthyHooks config.pre_build <;> simp [pre_run, h]
  · cases outline <;> cases dump <;>
      cases h : truthyHooks config.post_build <;> simp [post_run, h]
  · rintro (h | h) <;> subst h <;>
      exact ⟨by simp [pre_run], by simp [post_run]⟩

/-- Closed instance of C8: configured hooks are skipped in outline mode. -/
theorem C8_hooks_only_in_execute_mode_witness :
    pre_run ⟨Option.some ["h"], Option.some ["g"]⟩ true false = [] ∧
    post_run ⟨Option.some ["h"], Option.some ["g"]⟩ true false = [] :=
  (C8_hooks_only_in_execute_mode ⟨Option.some ["h"], Option.some ["g"]⟩
    true false).2.2 (Or.inl rfl)

theorem foldl_dictInsert_lookup_not_mem {β : Type} (f : β → String)
    (g : β → α) (l : List β) (acc : List (String × α)) (k : String)
    (hk : ∀ b ∈ l, f b ≠ k) :
    dictLookup (l.foldl (fun a b => dictInsert (f b) (g b) a) acc) k =
      dictLookup acc k := by
  induction l generalizing acc with
  | nil => rfl
  | cons hd tl ih =>
      simp only [List.foldl_cons]
      rw [ih _ (fun b hb => hk b (List.mem_cons_of_mem _ hb))]
      exact dictLookup_dictInsert_of_ne
        (fun h => hk hd (List.mem_cons_self _ _) h.symm) _ _

theorem foldl_dictInsert_lookup_mem {β : Type} (f : β → String) (g : β → α)
    (l : List β) (acc : List (String × α)) {b : β} (hb : b ∈ l)
    (hnd : (l.map f).Nodup) :
    dictLookup (l.foldl (fun a b => dictInsert (f b) (g b) a) acc) (f b) =
      Option.some (g b) := by
  induction l generalizing acc with
  | nil => simp at hb
  | cons hd tl ih =>
      have hnd' : f hd ∉ tl.map f ∧ (tl.map f).Nodup := by
        rw [List.map_cons] at hnd
        exact List.nodup_cons.mp hnd
      rcases List.mem_cons.mp hb with hb' | hb'
      · subst hb'
        simp only [List.foldl_cons]
        rw [foldl_dictInsert_lookup_not_mem f g tl _ (f b)
          (fun b' hb' h => hnd'.1 (h ▸ List.mem_map_of_mem f hb'))]
        exact dictLookup_dictInsert_self _ _ _
      · simp only [List.foldl_cons]
        exact ih _ hb' hnd'.2

theorem get_stacks_dict_lookup (stack_list : List Stack)
    (hnd : (stack_list.map Stack.fqn).Nodup) {s : Stack} (hs : s ∈ stack_list) :
    dictLookup (get_stacks_dict stack_list) s.fqn = Option.some s :=
  foldl_dictInsert_lookup_mem Stack.fqn id stack_list [] hs hnd

theorem get_dependencies_lookup (stack_list : List Stack)
    (hnd : (stack_list.map Stack.fqn).Nodup) {s : Stack} (hs : s ∈ stack_list) :
    dictLookup (get_dependencies stack_list) s.fqn = Option.some s.requires :=
  foldl_dictInsert_lookup_mem Stack.fqn Stack.requires stack_list [] hs hnd

theorem addSteps_eq (sdict : List (String × Stack))
    (deps : List (String × List String)) (order : List String)
    (h : ∀ n ∈ order, ∃ s, dictLookup sdict n = Option.some s) :
    addSteps sdict deps order =
      Option.some (order.map (fun n =>
        { key := n, run_func := launch_stack,
          requires := dictLookup deps n })) := by
  induction order with
  | nil => rfl
  | cons hd tl ih =>
      obtain ⟨s, hs⟩ := h hd (List.mem_cons_self _ _)
      unfold addSteps
      rw [hs, ih (fun n hn => h n (List.mem_cons_of_mem _ hn))]
      rfl

theorem map_key_map_step (deps : List (String × List String))
    (l : List String) :
    (l.map (fun n => ({ key := n, run_func := launch_stack,
                        requires := dictLookup deps n } : PlanStep))).map
      PlanStep.key = l := by
  induction l with
  | nil => rfl
  | cons hd tl ih => simp only [List.map_cons, ih]

/-- Claim C7: for a stack collection with unique fqns and an execution
order covering it, the generated plan has exactly one node per stack,
keyed by fqn, whose run function is the launch state machine and whose
requires equals the declared requires set of that stack. -/
theorem C7_generate_plan_nodes (order : List String) (stack_list : List Stack)
    (hnd : (stack_list.map Stack.fqn).Nodup)
    (horder : executionOrderOf order stack_list) :
    ∃ plan, generate_plan order stack_list = Option.some plan ∧
      (plan.map PlanStep.key).Perm (stack_list.map Stack.fqn) ∧
      (plan.map PlanStep.key).Nodup ∧
      ∀ s ∈ stack_list, ∃ step ∈ plan, step.key = s.fqn ∧
        step.run_func = launch_stack ∧
        step.requires = Option.some s.requires := by
  have hcov : ∀ n ∈ order, ∃ s, dictLookup (get_stacks_dict stack_list) n =
      Option.some s := by
    intro n hn
    have hn' : n ∈ stack_list.map Stack.fqn := horder.subset hn
    obtain ⟨s, hs, rfl⟩ := List.mem_map.mp hn'
    exact ⟨s, get_stacks_dict_lookup stack_list hnd hs⟩
  have heq := addSteps_eq (get_stacks_dict stack_list) (get_dependencies stack_list)
    order hcov
  refine ⟨_, heq, ?_, ?_, ?_⟩
  · have hkeys : (order.map (fun n =>
        ({ key := n, run_func := launch_stack,
           requires := dictLookup (get_dependencies stack_list) n } : PlanStep))).map
          PlanStep.key = order := map_key_map_step _ order
    rw [hkeys]
    exact horder
  · have hkeys : (order.map (fun n =>
        ({ key := n, run_func := launch_stack,
           requires := dictLookup (get_dependencies stack_list) n } : PlanStep))).map
          PlanStep.key = order := map_key_map_step _ order
    rw [hkeys]
    exact horder.nodup_iff.mpr hnd
  · intro s hs
    have hmem : s.fqn ∈ order := horder.symm.subset (List.mem_map_of_mem _ hs)
    refine ⟨{ key := s.fqn, run_func := launch_stack,
              requires := dictLookup (get_dependencies stack_list) s.fqn },
            List.mem_map_of_mem _ hmem, rfl, rfl, ?_⟩
    exact get_dependencies_lookup stack_list hnd hs

/-- Closed instance of C7 on a two-stack collection with one dependency
edge. -/
theorem C7_generate_plan_nodes_witness :
    (([stackA, stackB].map Stack.fqn).Nodup ∧
      executionOrderOf ["a", "b"] [stackA, stackB]) ∧
    (∃ plan, generate_plan ["a", "b"] [stackA, stackB] = Option.some plan ∧
      (plan.map PlanStep.key).Perm ([stackA, stackB].map Stack.fqn) ∧
      (plan.map PlanStep.key).Nodup ∧
      ∀ s ∈ [stackA, stackB], ∃ step ∈ plan, step.key = s.fqn ∧
        step.run_func = launch_stack ∧
        step.requires = Option.some s.requires) :=
  ⟨⟨by decide, List.Perm.refl _⟩,
   C7_generate_plan_nodes ["a", "b"] [stackA, stackB] (by decide)
     (List.Perm.refl _)⟩

/-- Claim C9: build_parameters renders every post-fallback pair through
str(): the submitted entries are exactly the fallback result mapped to
ParameterKey/ParameterValue records with the value passed through pyStr,
so non-string non-boolean values such as integers are submitted as their
string form. -/
theorem C9_build_parameters_str (get_stack : GetStackRes) (stack : Stack)
    (pairs : List (String × PyValue)) (ev : List Event)
    (hh : handle_missing_parameters get_stack
        (resolve_parameters stack.parameter_values stack.param_definitions)
        stack.required_parameter_definitions = (Except.ok pairs, ev)) :
    (build_parameters get_stack stack).1 =
      Except.ok (pairs.map (fun p => (⟨p.1, pyStr p.2⟩ : CFParam))) ∧
    ∀ q ∈ pairs.map (fun p => (⟨p.1, pyStr p.2⟩ : CFParam)),
      ∃ kv ∈ pairs, q = ⟨kv.1, pyStr kv.2⟩ := by
  constructor
  · unfold build_parameters
    rw [hh]
  · intro q hq
    obtain ⟨kv, hkv, hq'⟩ := List.mem_map.mp hq
    exact ⟨kv, hkv, hq'.symm⟩

/-- Closed instance of C9: the integer 42 is submitted as the string 42. -/
theorem C9_build_parameters_str_witness :
    handle_missing_parameters GetStackRes.stackDoesNotExist
        (resolve_parameters sizeStack.parameter_values
          sizeStack.param_definitions)
        sizeStack.required_parameter_definitions =
      (Except.ok [(("Size" : String), PyValue.int 42)], []) ∧
    ((build_parameters GetStackRes.stackDoesNotExist sizeStack).1 =
        Except.ok (([(("Size" : String), PyValue.int 42)]).map
          (fun p => (⟨p.1, pyStr p.2⟩ : CFParam))) ∧
     ∀ q ∈ ([(("Size" : String), PyValue.int 42)]).map
          (fun p => (⟨p.1, pyStr p.2⟩ : CFParam)),
        ∃ kv ∈ [(("Size" : String), PyValue.int 42)], q = ⟨kv.1, pyStr kv.2⟩) :=
  ⟨rfl, C9_build_parameters_str GetStackRes.stackDoesNotExist sizeStack
    [("Size", PyValue.int 42)] [] rfl⟩

end Stacker
